import Mathlib

/-! Verification of the SNS-IK dispatch layer (`sns_ik_lib/src/sns_ik.cpp`).
This file is a shallow embedding of the `SNS_IK` facade class: construction and
initialization, velocity-solver selection (`setVelocitySolveType`), the solve
entry points (`CartToJnt`, `CartToJntVel`) and the nullspace bias task
(`nullspaceBiasTask`), together with theorems about the specification's claims.
C++ `double` scalars are modelled as rationals; every operation the embedded
code performs on them (copies, comparisons, field arithmetic) is exact, so the
model is faithful on those operations. External collaborators (the KDL Jacobian
solver and the five velocity-solving strategies) are modelled by their
observable interface: the Jacobian result is a parameter of `CartToJntVel`, and
an `invoke` outcome records exactly what would be forwarded to the strategy. -/

set_option autoImplicit false

/-- The five velocity-solver variants of the `sns_ik::VelocitySolveType`
enumeration (constants `SNS`, `SNS_OptimalScaleMargin`, `SNS_Optimal`,
`SNS_Fast`, `SNS_FastOptimal`). -/
inductive VelocitySolveType where
  | SNS
  | SNS_OptimalScaleMargin
  | SNS_Optimal
  | SNS_Fast
  | SNS_FastOptimal
deriving DecidableEq

/-- The joint classification stored in `m_types` (`SNS_IK::JointType`). -/
inductive JointType where
  | Revolute
  | Prismatic
  | Continuous
deriving DecidableEq

/-- The kind of a KDL chain segment's joint, as observed by the code:
`getTypeName()` contains `"Rot"` (rotational joint), contains `"Trans"`
(translational joint), or the joint is fixed (`"None"`, not counted by
`KDL::Chain::getNrOfJoints`). -/
inductive SegKind where
  | rot
  | trans
  | fixed
deriving DecidableEq

/-- `KDL::Chain::getNrOfJoints`: the number of non-fixed joints of the chain. -/
def getNrOfJoints (chain : List SegKind) : Nat :=
  chain.countP (fun k => decide (k ≠ SegKind.fixed))

/-- A dense real matrix (`Eigen::MatrixXd`, alias `MatrixD`): explicit
dimensions plus a row-major list of rows. -/
structure Mat where
  rows : Nat
  cols : Nat
  data : List (List ℚ)
deriving DecidableEq

/-- `MatrixD::Zero(r, c)`. -/
def matZero (r c : Nat) : Mat :=
  ⟨r, c, List.replicate r (List.replicate c 0)⟩

/-- The entry write `m(i, j) = v`. Writing outside the allocated dimensions is
out-of-bounds access in Eigen (assertion failure / undefined behaviour),
modelled as `none`. -/
def matSet (m : Mat) (i j : Nat) (v : ℚ) : Option Mat :=
  if i < m.rows ∧ j < m.cols then
    some ⟨m.rows, m.cols, m.data.set i ((m.data.getD i []).set j v)⟩
  else none

/-- `std::numeric_limits<float>::max()` as an exact rational:
`(2 - 2^-23) * 2^127 = 2^128 - 2^104 = 340282346638528859811704183484516925440`
(written as a numeral so that kernel evaluation of comparisons against it does
not need rational normalization). The code uses this value (and its negation,
`std::numeric_limits<float>::lowest()`) as the sentinel bounds of continuous
joints. -/
def floatMax : ℚ := 340282346638528859811704183484516925440

theorem floatMax_eq : floatMax = 2 ^ 128 - 2 ^ 104 := by
  norm_num [floatMax]

/-- The observable configuration of a velocity-solving strategy instance: which
variant was constructed, the constructor arguments (joint count and loop rate),
the capability bounds passed to `setJointsCapabilities`, and the
`usePositionLimits` toggle. -/
structure SolverHandle where
  vtype : VelocitySolveType
  numJoints : Nat
  looprate : ℚ
  capLower : List ℚ
  capUpper : List ℚ
  capVel : List ℚ
  capAcc : List ℚ
  posLimits : Bool
deriving DecidableEq

/-- The observable configuration of the position-solving wrapper
(`SNSPositionIK(chain, velocity solver, eps)`). -/
structure PosSolverHandle where
  chain : List SegKind
  eps : ℚ
deriving DecidableEq

/-- The member state of the `SNS_IK` facade class. The two solver members are
`Option`s: `none` models a null `std::shared_ptr`. `m_jacobianSolver` records
whether the `KDL::ChainJntToJacSolver` has been created. -/
structure SNS_IK where
  m_initialized : Bool
  m_eps : ℚ
  m_looprate : ℚ
  m_nullspaceGain : ℚ
  m_solvetype : VelocitySolveType
  m_chain : List SegKind
  m_lower_bounds : List ℚ
  m_upper_bounds : List ℚ
  m_velocity : List ℚ
  m_acceleration : List ℚ
  m_jointNames : List String
  m_types : List JointType
  m_jacobianSolver : Bool
  m_ik_vel_solver : Option SolverHandle
  m_ik_pos_solver : Option PosSolverHandle
deriving DecidableEq

/-- `SNS_IK::setVelocitySolveType`. The enumeration is closed, so every branch
of the `switch` constructs a solver (with the chain's joint count and the loop
rate), configures it with the stored capability bounds, turns its internal
position-limit handling off, creates a fresh position wrapper, stores the tag,
and marks the instance initialized. When the requested tag equals the current
one and a solver already exists, nothing is mutated and `false` is returned. -/
def SNS_IK.setVelocitySolveType (s : SNS_IK) (type : VelocitySolveType) :
    Bool × SNS_IK :=
  if s.m_solvetype ≠ type ∨ s.m_ik_vel_solver = none then
    (true,
      { s with
        m_ik_vel_solver := some
          { vtype := type
            numJoints := getNrOfJoints s.m_chain
            looprate := s.m_looprate
            capLower := s.m_lower_bounds
            capUpper := s.m_upper_bounds
            capVel := s.m_velocity
            capAcc := s.m_acceleration
            posLimits := false }
        m_ik_pos_solver := some { chain := s.m_chain, eps := s.m_eps }
        m_solvetype := type
        m_initialized := true })
  else (false, s)

/-- One iteration of the joint-classification loop in `SNS_IK::initialize`:
a rotational segment is classified `Continuous` when its stored bounds are at
or beyond the float sentinels (the code compares with `>=` and `<=`), else
`Revolute`; a translational segment is `Prismatic`; a fixed segment adds
nothing. The bound lookups index at the current `m_types.size()`, i.e. at the
length of the accumulator. -/
def classifyStep (lower upper : List ℚ) (acc : List JointType) (seg : SegKind) :
    List JointType :=
  match seg with
  | SegKind.rot =>
      if upper.getD acc.length 0 ≥ floatMax ∧ lower.getD acc.length 0 ≤ -floatMax then
        acc ++ [JointType.Continuous]
      else
        acc ++ [JointType.Revolute]
  | SegKind.trans => acc ++ [JointType.Prismatic]
  | SegKind.fixed => acc

/-- The whole classification loop of `SNS_IK::initialize`, starting from the
empty `m_types` of a freshly constructed object. -/
def classifyTypes (chain : List SegKind) (lower upper : List ℚ) : List JointType :=
  chain.foldl (classifyStep lower upper) []

/-- `SNS_IK::initialize`: the five length checks against the chain's joint
count, the zero-joint check, the classification loop, the `m_types` size check,
creation of the Jacobian solver, and the call to `setVelocitySolveType` with
the stored tag. Returns the C++ `bool` together with the resulting state. -/
def SNS_IK.init (s : SNS_IK) : Bool × SNS_IK :=
  if getNrOfJoints s.m_chain ≠ s.m_lower_bounds.length then (false, s)
  else if getNrOfJoints s.m_chain ≠ s.m_upper_bounds.length then (false, s)
  else if getNrOfJoints s.m_chain ≠ s.m_velocity.length then (false, s)
  else if getNrOfJoints s.m_chain ≠ s.m_acceleration.length then (false, s)
  else if getNrOfJoints s.m_chain ≠ s.m_jointNames.length then (false, s)
  else if s.m_jointNames.length = 0 then (false, s)
  else
    let s1 := { s with
      m_types := classifyTypes s.m_chain s.m_lower_bounds s.m_upper_bounds }
    if s1.m_types.length ≠ s1.m_lower_bounds.length then (false, s1)
    else
      SNS_IK.setVelocitySolveType { s1 with m_jacobianSolver := true } s1.m_solvetype

/-- The explicit-arrays constructor
`SNS_IK::SNS_IK(chain, q_min, q_max, v_max, a_max, jointNames, looprate, eps, type)`:
member initialization (with `m_initialized = false`, `m_nullspaceGain = 1`)
followed by `initialize()`; the constructor ignores the returned flag beyond
logging, so the result is the final object state. -/
def mkSNS_IK (chain : List SegKind) (q_min q_max v_max a_max : List ℚ)
    (jointNames : List String) (looprate eps : ℚ) (type : VelocitySolveType) :
    SNS_IK :=
  (SNS_IK.init
    { m_initialized := false
      m_eps := eps
      m_looprate := looprate
      m_nullspaceGain := 1
      m_solvetype := type
      m_chain := chain
      m_lower_bounds := q_min
      m_upper_bounds := q_max
      m_velocity := v_max
      m_acceleration := a_max
      m_jointNames := jointNames
      m_types := []
      m_jacobianSolver := false
      m_ik_vel_solver := none
      m_ik_pos_solver := none }).2

/-- `std::find` over the joint-name list followed by `std::distance`: the index
of the first occurrence of `b`, or `none` when `b` does not occur. -/
def findIndex (names : List String) (b : String) : Option Nat :=
  match names with
  | [] => none
  | x :: xs => if x = b then some 0 else (findIndex xs b).map (· + 1)

/-- The outcome of `SNS_IK::nullspaceBiasTask`: the two `return false` paths
(count mismatch; a bias name absent from the chain), the out-of-bounds Eigen
write (undefined behaviour, recorded with the attempted coordinates), or
success with the bias Jacobian and the resolved index list. -/
inductive BiasResult where
  | countMismatch
  | nameNotFound
  | oobWrite (row col : Nat)
  | ok (jacobian : Mat) (indicies : List Nat)
deriving DecidableEq

/-- The loop of `SNS_IK::nullspaceBiasTask`: for each requested bias name, look
its index up in the chain's joint-name list, write a `1` into the bias Jacobian
at (current row, found index), and record the index. -/
def biasLoop (jointNames : List String) (jac : Mat) (ind : List Nat) (ii : Nat) :
    List String → BiasResult
  | [] => BiasResult.ok jac ind
  | b :: bs =>
    match findIndex jointNames b with
    | none => BiasResult.nameNotFound
    | some indx =>
      match matSet jac ii indx 1 with
      | none => BiasResult.oobWrite ii indx
      | some jac2 => biasLoop jointNames jac2 (ind.set ii indx) (ii + 1) bs

/-- `SNS_IK::nullspaceBiasTask`. Note the allocation
`MatrixD::Zero(m_jointNames.size(), q_bias.rows())` — joint count rows by bias
count columns — while the loop writes at (bias row, joint index). The resolved
index vector is `resize`d to the bias count with fill value `0`. -/
def SNS_IK.nullspaceBiasTask (s : SNS_IK) (q_bias : List ℚ)
    (biasNames : List String) : BiasResult :=
  if q_bias.length ≠ biasNames.length then BiasResult.countMismatch
  else
    biasLoop s.m_jointNames (matZero s.m_jointNames.length q_bias.length)
      (List.replicate q_bias.length 0) 0 biasNames

/-- A task of the stack of tasks (`sns_ik::Task`): a Jacobian paired with a
desired-velocity vector. -/
structure SnsTask where
  jacobian : Mat
  desired : List ℚ
deriving DecidableEq

/-- The observable outcome of `SNS_IK::CartToJntVel` up to the invocation of
the velocity strategy: the not-initialized failure, the Jacobian-solver
failure, the nullspace-bias lookup failure (all three return `-1`), the
out-of-bounds bias-Jacobian write (undefined behaviour), or the invocation of
`getJointVelocity` with the recorded task stack and joint positions. -/
inductive VelOutcome where
  | notReady
  | jacFail
  | lookupFail
  | oob (row col : Nat)
  | invoke (sot : List SnsTask) (q : List ℚ)
deriving DecidableEq

/-- `SNS_IK::CartToJntVel`. `v_in` is the 6-dimensional input twist
(`KDL::Twist` holds exactly six scalars); `jacResult` is the result of the
external `KDL::ChainJntToJacSolver::JntToJac` call (`none` models a negative
return). The primary task holds the chain Jacobian and a copy of the twist; the
bias task, built only when `q_bias` is nonempty, holds the bias Jacobian and
the proportional nullspace velocity
`m_nullspaceGain * (q_bias(ii) - q_in(indicies[ii])) / m_looprate`. -/
def SNS_IK.CartToJntVel (s : SNS_IK) (q_in : List ℚ) (v_in : Fin 6 → ℚ)
    (q_bias : List ℚ) (biasNames : List String) (jacResult : Option Mat) :
    VelOutcome :=
  if s.m_initialized = false then VelOutcome.notReady
  else
    match jacResult with
    | none => VelOutcome.jacFail
    | some jacobian =>
      let task : SnsTask := { jacobian := jacobian, desired := List.ofFn v_in }
      let sot := [task]
      if q_bias.length ≠ 0 then
        match s.nullspaceBiasTask q_bias biasNames with
        | BiasResult.countMismatch => VelOutcome.lookupFail
        | BiasResult.nameNotFound => VelOutcome.lookupFail
        | BiasResult.oobWrite r c => VelOutcome.oob r c
        | BiasResult.ok jac2 indicies =>
          let task2 : SnsTask :=
            { jacobian := jac2
              desired := (List.range q_bias.length).map
                (fun ii => s.m_nullspaceGain *
                  (q_bias.getD ii 0 - q_in.getD (indicies.getD ii 0) 0) /
                  s.m_looprate) }
          VelOutcome.invoke (sot ++ [task2]) q_in
      else VelOutcome.invoke sot q_in

/-- The observable outcome of `SNS_IK::CartToJnt` up to the invocation of the
position solver: not-initialized failure, bias lookup failure (both return
`-1`), the out-of-bounds bias-Jacobian write, or the invocation of the position
wrapper — with bias Jacobian, resolved indices and nullspace gain when a bias
request is present, plainly otherwise. -/
inductive PosOutcome where
  | notReady
  | lookupFail
  | oob (row col : Nat)
  | invokeBias (q_init : List ℚ) (jacobian : Mat) (indicies : List Nat) (gain : ℚ)
  | invokePlain (q_init : List ℚ)
deriving DecidableEq

/-- `SNS_IK::CartToJnt` (dispatch part; the target frame and tolerance bounds
are forwarded unchanged and play no role in the dispatch). -/
def SNS_IK.CartToJnt (s : SNS_IK) (q_init : List ℚ) (q_bias : List ℚ)
    (biasNames : List String) : PosOutcome :=
  if s.m_initialized = false then PosOutcome.notReady
  else if q_bias.length ≠ 0 then
    match s.nullspaceBiasTask q_bias biasNames with
    | BiasResult.countMismatch => PosOutcome.lookupFail
    | BiasResult.nameNotFound => PosOutcome.lookupFail
    | BiasResult.oobWrite r c => PosOutcome.oob r c
    | BiasResult.ok jac inds => PosOutcome.invokeBias q_init jac inds s.m_nullspaceGain
  else PosOutcome.invokePlain q_init

/-- A successfully constructed instance over the 6-joint all-revolute chain of
the specification's worked example, joints named `j1` … `j6`. -/
def ik6 : SNS_IK :=
  mkSNS_IK (List.replicate 6 SegKind.rot) (List.replicate 6 (-1))
    (List.replicate 6 1) (List.replicate 6 2) (List.replicate 6 5)
    ["j1", "j2", "j3", "j4", "j5", "j6"] 100 1
    VelocitySolveType.SNS

/-- A successfully constructed instance over a 3-joint chain `a`, `b`, `c`. -/
def ik3 : SNS_IK :=
  mkSNS_IK (List.replicate 3 SegKind.rot) (List.replicate 3 (-1))
    (List.replicate 3 1) (List.replicate 3 2) (List.replicate 3 5)
    ["a", "b", "c"] 100 1 VelocitySolveType.SNS

/-- A successfully constructed instance over a 2-joint chain `a`, `b`. -/
def ik2 : SNS_IK :=
  mkSNS_IK [SegKind.rot, SegKind.rot] [-1, -1] [1, 1] [2, 2] [5, 5]
    ["a", "b"] 100 1 VelocitySolveType.SNS

/-- A successfully constructed instance over a 1-joint chain `a`. -/
def ik1 : SNS_IK :=
  mkSNS_IK [SegKind.rot] [-1] [1] [2] [5] ["a"] 100 1
    VelocitySolveType.SNS

/-- An instance whose construction failed: the chain has one movable joint but
all bound arrays and the name list are empty, so the first length check of
`initialize` fails and no solver is ever created. -/
def ikBad : SNS_IK :=
  mkSNS_IK [SegKind.rot] [] [] [] [] [] 100 1
    VelocitySolveType.SNS

/-- A second failed-construction instance: two movable joints, arrays of
length one. -/
def ikBad2 : SNS_IK :=
  mkSNS_IK [SegKind.rot, SegKind.rot] [0] [0] [0] [0] ["a"] 100
    1 VelocitySolveType.SNS


/-- Helper: one classification step grows the accumulator by one entry for a
movable segment and leaves it unchanged for a fixed segment. -/
theorem classifyStep_length (lower upper : List ℚ) (acc : List JointType)
    (seg : SegKind) :
    (classifyStep lower upper acc seg).length =
      acc.length + (if seg = SegKind.fixed then 0 else 1) := by
  cases seg with
  | rot =>
    rw [show (if SegKind.rot = SegKind.fixed then 0 else 1) = 1 from rfl]
    simp only [classifyStep]
    split_ifs <;> simp
  | trans => simp [classifyStep]
  | fixed => simp [classifyStep]

/-- Helper: the classification fold produces one entry per movable joint. -/
theorem classify_foldl_length (lower upper : List ℚ) :
    ∀ (chain : List SegKind) (acc : List JointType),
      (chain.foldl (classifyStep lower upper) acc).length =
        acc.length + getNrOfJoints chain := by
  intro chain
  induction chain with
  | nil => intro acc; simp [getNrOfJoints]
  | cons seg rest ih =>
    intro acc
    rw [List.foldl_cons, ih, classifyStep_length]
    simp only [getNrOfJoints, List.countP_cons]
    cases seg <;> simp <;> omega

/-- The movable (non-fixed) segments of a chain, in order. -/
def nonFixedSegs (chain : List SegKind) : List SegKind :=
  chain.filter (fun k => decide (k ≠ SegKind.fixed))

theorem nonFixedSegs_cons_rot (rest : List SegKind) :
    nonFixedSegs (SegKind.rot :: rest) = SegKind.rot :: nonFixedSegs rest := rfl

theorem nonFixedSegs_cons_trans (rest : List SegKind) :
    nonFixedSegs (SegKind.trans :: rest) = SegKind.trans :: nonFixedSegs rest := rfl

theorem nonFixedSegs_cons_fixed (rest : List SegKind) :
    nonFixedSegs (SegKind.fixed :: rest) = nonFixedSegs rest := rfl

/-- The classification loop rewritten as a recursion over the segments with an
explicit running index for the bound lookups (proof device for per-joint facts
about `classifyTypes`). -/
def classifySpecAux (lower upper : List ℚ) : List SegKind → Nat → List JointType
  | [], _ => []
  | SegKind.fixed :: rest, i => classifySpecAux lower upper rest i
  | SegKind.rot :: rest, i =>
      (if upper.getD i 0 ≥ floatMax ∧ lower.getD i 0 ≤ -floatMax then
        JointType.Continuous
      else JointType.Revolute) :: classifySpecAux lower upper rest (i + 1)
  | SegKind.trans :: rest, i =>
      JointType.Prismatic :: classifySpecAux lower upper rest (i + 1)

/-- Helper: the imperative classification fold equals the indexed recursion. -/
theorem classify_foldl_eq_aux (lower upper : List ℚ) :
    ∀ (chain : List SegKind) (acc : List JointType),
      chain.foldl (classifyStep lower upper) acc =
        acc ++ classifySpecAux lower upper chain acc.length := by
  intro chain
  induction chain with
  | nil => intro acc; simp [classifySpecAux]
  | cons seg rest ih =>
    intro acc
    cases seg with
    | rot =>
      rw [List.foldl_cons, ih]
      simp only [classifyStep, classifySpecAux]
      split_ifs <;> simp
    | trans =>
      rw [List.foldl_cons, ih]
      simp only [classifyStep, classifySpecAux]
      simp
    | fixed =>
      rw [List.foldl_cons, ih]
      simp only [classifyStep, classifySpecAux]

/-- Helper: entry `j` of the indexed classification recursion is determined by
the `j`-th movable segment and the bounds at index `i + j`. -/
theorem classifySpecAux_getD (lower upper : List ℚ) :
    ∀ (chain : List SegKind) (i j : Nat),
      (classifySpecAux lower upper chain i).getD j JointType.Revolute =
        (match (nonFixedSegs chain).getD j SegKind.fixed with
        | SegKind.rot =>
            if upper.getD (i + j) 0 ≥ floatMax ∧ lower.getD (i + j) 0 ≤ -floatMax then
              JointType.Continuous
            else JointType.Revolute
        | SegKind.trans => JointType.Prismatic
        | SegKind.fixed => JointType.Revolute) := by
  intro chain
  induction chain with
  | nil => intro i j; simp [classifySpecAux, nonFixedSegs]
  | cons seg rest ih =>
    intro i j
    cases seg with
    | fixed =>
      rw [nonFixedSegs_cons_fixed]
      rw [show classifySpecAux lower upper (SegKind.fixed :: rest) i =
        classifySpecAux lower upper rest i from rfl]
      exact ih i j
    | rot =>
      rw [nonFixedSegs_cons_rot]
      cases j with
      | zero =>
        rw [show classifySpecAux lower upper (SegKind.rot :: rest) i =
          (if upper.getD i 0 ≥ floatMax ∧ lower.getD i 0 ≤ -floatMax then
            JointType.Continuous
          else JointType.Revolute) :: classifySpecAux lower upper rest (i + 1) from rfl]
        rw [List.getD_cons_zero, List.getD_cons_zero, Nat.add_zero]
      | succ j =>
        rw [show classifySpecAux lower upper (SegKind.rot :: rest) i =
          (if upper.getD i 0 ≥ floatMax ∧ lower.getD i 0 ≤ -floatMax then
            JointType.Continuous
          else JointType.Revolute) :: classifySpecAux lower upper rest (i + 1) from rfl]
        rw [List.getD_cons_succ, List.getD_cons_succ, ih (i + 1) j,
          show i + 1 + j = i + (j + 1) by omega]
    | trans =>
      rw [nonFixedSegs_cons_trans]
      cases j with
      | zero =>
        rw [show classifySpecAux lower upper (SegKind.trans :: rest) i =
          JointType.Prismatic :: classifySpecAux lower upper rest (i + 1) from rfl]
        rw [List.getD_cons_zero, List.getD_cons_zero]
      | succ j =>
        rw [show classifySpecAux lower upper (SegKind.trans :: rest) i =
          JointType.Prismatic :: classifySpecAux lower upper rest (i + 1) from rfl]
        rw [List.getD_cons_succ, List.getD_cons_succ, ih (i + 1) j,
          show i + 1 + j = i + (j + 1) by omega]

/-- Helper: the name search fails exactly when the name is absent. -/
theorem findIndex_eq_none_iff (names : List String) (b : String) :
    findIndex names b = none ↔ b ∉ names := by
  induction names with
  | nil => simp [findIndex]
  | cons x xs ih =>
    by_cases hx : x = b
    · simp [findIndex, hx]
    · rw [show findIndex (x :: xs) b =
        (if x = b then some 0 else (findIndex xs b).map (· + 1)) from rfl]
      rw [if_neg hx]
      simp only [Option.map_eq_none', ih, List.mem_cons]
      constructor
      · rintro h (rfl | hmem)
        · exact hx rfl
        · exact h hmem
      · intro h hmem
        exact h (Or.inr hmem)

/-- Helper: when some remaining bias name is absent from the chain, the bias
loop ends in `nameNotFound` or aborts earlier at an out-of-bounds write. -/
theorem biasLoop_absent (jointNames : List String) :
    ∀ (rest : List String) (jac : Mat) (ind : List Nat) (ii : Nat),
      (∃ b ∈ rest, b ∉ jointNames) →
      biasLoop jointNames jac ind ii rest = BiasResult.nameNotFound ∨
        ∃ r c, biasLoop jointNames jac ind ii rest = BiasResult.oobWrite r c := by
  intro rest
  induction rest with
  | nil =>
    rintro jac ind ii ⟨b, hb, _⟩
    exact absurd hb (List.not_mem_nil b)
  | cons x xs ih =>
    rintro jac ind ii ⟨b, hb, hnot⟩
    cases hfind : findIndex jointNames x with
    | none =>
      left
      simp [biasLoop, hfind]
    | some indx =>
      cases hset : matSet jac ii indx 1 with
      | none =>
        right
        exact ⟨ii, indx, by simp [biasLoop, hfind, hset]⟩
      | some jac2 =>
        have hb2 : b ∈ xs := by
          rcases List.mem_cons.mp hb with rfl | hmem
          · have : findIndex jointNames b = none :=
              (findIndex_eq_none_iff jointNames b).mpr hnot
            rw [this] at hfind
            cases hfind
          · exact hmem
        have := ih jac2 (ind.set ii indx) (ii + 1) ⟨b, hb2, hnot⟩
        simpa [biasLoop, hfind, hset] using this

/-- C1 (code bug): at the specification's own worked example — the 6-joint
chain `j1` … `j6` with bias request names `[j2, j5]` — the code allocates the
bias Jacobian as `MatrixD::Zero(m_jointNames.size(), q_bias.rows())`, i.e.
6 rows by 2 columns, so the second write, `(*jacobian)(1, 4) = 1`, addresses
column 4 of a 2-column matrix: an out-of-bounds Eigen access, instead of the
claimed 2-by-6 selection Jacobian with ones at (0,1) and (1,4). The `Zero`
arguments are transposed relative to the loop's write pattern and to the
consumer, which needs one column per chain joint. -/
theorem sns_c1_bias_jacobian_transposed_oob :
    ik6.m_jointNames = ["j1", "j2", "j3", "j4", "j5", "j6"] ∧
      (matZero ik6.m_jointNames.length ([1, 2] : List ℚ).length).rows = 6 ∧
      (matZero ik6.m_jointNames.length ([1, 2] : List ℚ).length).cols = 2 ∧
      ik6.nullspaceBiasTask [1, 2] ["j2", "j5"] = BiasResult.oobWrite 1 4 := by
  decide

/-- C9 (code bug): a bias request whose joint resolves to an index at or beyond
the bias count makes the loop write outside the allocated bias Jacobian. Here
the chain is `[a, b, c]`, the request names only `c` (resolved index 2), the
matrix is allocated 3 rows by 1 column, and the write targets (0, 2). -/
theorem sns_c9_oob_write_bug :
    ik3.m_jointNames = ["a", "b", "c"] ∧
      (matZero ik3.m_jointNames.length ([7] : List ℚ).length).rows = 3 ∧
      (matZero ik3.m_jointNames.length ([7] : List ℚ).length).cols = 1 ∧
      ik3.nullspaceBiasTask [7] ["c"] = BiasResult.oobWrite 0 2 := by
  decide

/-- C2 counterexample: after a construction that failed its length checks
(`ikBad`: one movable joint, empty bound arrays) the instance is not Ready,
yet one subsequent public `setVelocitySolveType` call — even with the same
tag — succeeds and marks the instance Ready, because the no-op branch requires
an existing velocity solver and none was ever created. ConfigError is therefore
not terminal. -/
theorem sns_c2_config_error_not_terminal_cex :
    ikBad.m_initialized = false ∧
      (ikBad.setVelocitySolveType VelocitySolveType.SNS).1 = true ∧
      ((ikBad.setVelocitySolveType VelocitySolveType.SNS).2).m_initialized = true := by
  decide

/-- C2 (amended): a not-Ready instance fails every `CartToJnt` and
`CartToJntVel` call with NotReadyError (`-1`), and since these calls never
mutate the instance, it stays not-Ready under any sequence of solve calls;
Ready can only be re-established by a subsequent `setVelocitySolveType` call
(which does succeed, per the counterexample). -/
theorem sns_c2_amended_not_ready (s : SNS_IK) (h : s.m_initialized = false)
    (q_init q_in : List ℚ) (v_in : Fin 6 → ℚ) (q_bias : List ℚ)
    (biasNames : List String) (jacResult : Option Mat) :
    s.CartToJnt q_init q_bias biasNames = PosOutcome.notReady ∧
      s.CartToJntVel q_in v_in q_bias biasNames jacResult = VelOutcome.notReady := by
  constructor
  · simp [SNS_IK.CartToJnt, h]
  · simp [SNS_IK.CartToJntVel, h]

theorem sns_c2_amended_witness :
    ikBad2.m_initialized = false ∧
      (ikBad2.CartToJnt [0, 0] [1] ["a"] = PosOutcome.notReady ∧
        ikBad2.CartToJntVel [0, 0] (fun _ => 0) [1] ["a"] (some (matZero 6 2)) =
          VelOutcome.notReady) :=
  ⟨by decide,
    sns_c2_amended_not_ready ikBad2 (by decide) [0, 0] [0, 0] (fun _ => 0) [1]
      ["a"] (some (matZero 6 2))⟩

/-- C3: the explicit-arrays constructor yields a Ready instance exactly when
the four bound arrays and the joint-name list each have length equal to the
chain's movable-joint count and that count is nonzero. No other condition
affects the outcome: the strategy tag is universally quantified and absent from
the right-hand side (every tag of the closed enumeration constructs a solver),
and in this constructor the bounds of every non-Continuous joint are taken as
given, hence always resolvable. -/
theorem sns_c3_construct_ready_iff (chain : List SegKind)
    (q_min q_max v_max a_max : List ℚ) (jointNames : List String)
    (looprate eps : ℚ) (type : VelocitySolveType) :
    (mkSNS_IK chain q_min q_max v_max a_max jointNames looprate eps
        type).m_initialized = true ↔
      (q_min.length = getNrOfJoints chain ∧ q_max.length = getNrOfJoints chain ∧
        v_max.length = getNrOfJoints chain ∧ a_max.length = getNrOfJoints chain ∧
        jointNames.length = getNrOfJoints chain ∧ getNrOfJoints chain ≠ 0) := by
  have hlen : (classifyTypes chain q_min q_max).length = getNrOfJoints chain := by
    have := classify_foldl_length q_min q_max chain []
    simpa [classifyTypes] using this
  simp only [mkSNS_IK, SNS_IK.init]
  split_ifs with h1 h2 h3 h4 h5 h6 h7
  · exact iff_of_false (by simp) fun h => h1 h.1.symm
  · exact iff_of_false (by simp) fun h => h2 h.2.1.symm
  · exact iff_of_false (by simp) fun h => h3 h.2.2.1.symm
  · exact iff_of_false (by simp) fun h => h4 h.2.2.2.1.symm
  · exact iff_of_false (by simp) fun h => h5 h.2.2.2.2.1.symm
  · refine iff_of_false (by simp) fun h => h.2.2.2.2.2 ?_
    have h5e : getNrOfJoints chain = jointNames.length := not_ne_iff.mp h5
    omega
  · exfalso
    apply h7
    rw [hlen]
    exact not_ne_iff.mp h1
  · rw [SNS_IK.setVelocitySolveType, if_pos (Or.inr rfl)]
    refine iff_of_true rfl ⟨?_, ?_, ?_, ?_, ?_, ?_⟩ <;> omega

/-- C4 counterexample: a rotational joint whose bounds lie strictly beyond the
sentinel pair — hence with bounds other than "exactly the sentinel values" — is
still classified Continuous, not Revolute as the claim requires (the code
compares with `>=` and `<=`, not equality). -/
theorem sns_c4_beyond_sentinel_cex :
    classifyTypes [SegKind.rot] [-340282346638528859811704183484516925441]
        [340282346638528859811704183484516925441] = [JointType.Continuous] ∧
      (340282346638528859811704183484516925441 : ℚ) ≠ floatMax ∧
      (-340282346638528859811704183484516925441 : ℚ) ≠ -floatMax := by
  refine ⟨by decide, by decide, by decide⟩

/-- C4 (amended): during initialization the `i`-th movable joint is classified
as follows: a rotational joint is Continuous exactly when its stored upper
bound is at or beyond the positive sentinel AND its lower bound is at or beyond
the negative sentinel, and Revolute otherwise; a translational joint is
Prismatic. (The claim's "exactly the sentinel values" must be weakened to
"at or beyond the sentinel values".) -/
theorem sns_c4_amended_classification (chain : List SegKind)
    (lower upper : List ℚ) (i : Nat) :
    ((nonFixedSegs chain).getD i SegKind.fixed = SegKind.rot →
      (classifyTypes chain lower upper).getD i JointType.Revolute =
        (if upper.getD i 0 ≥ floatMax ∧ lower.getD i 0 ≤ -floatMax then
          JointType.Continuous
        else JointType.Revolute)) ∧
    ((nonFixedSegs chain).getD i SegKind.fixed = SegKind.trans →
      (classifyTypes chain lower upper).getD i JointType.Revolute =
        JointType.Prismatic) := by
  have h0 : classifyTypes chain lower upper = classifySpecAux lower upper chain 0 := by
    have := classify_foldl_eq_aux lower upper chain []
    simpa [classifyTypes] using this
  have h1 := classifySpecAux_getD lower upper chain 0 i
  rw [h0, h1]
  constructor
  · intro hr
    rw [hr]
    simp
  · intro ht
    rw [ht]

theorem sns_c4_amended_witness :
    (nonFixedSegs [SegKind.rot, SegKind.trans]).getD 0 SegKind.fixed =
        SegKind.rot ∧
      (classifyTypes [SegKind.rot, SegKind.trans] [-1, 0] [1, 0]).getD 0
          JointType.Revolute =
        (if ([1, 0] : List ℚ).getD 0 0 ≥ floatMax ∧
            ([-1, 0] : List ℚ).getD 0 0 ≤ -floatMax then
          JointType.Continuous
        else JointType.Revolute) :=
  ⟨by decide,
    (sns_c4_amended_classification [SegKind.rot, SegKind.trans] [-1, 0] [1, 0]
      0).1 (by decide)⟩

/-- Helper: indexing into a map over `List.range`. -/
theorem range_map_getD (n : Nat) (f : Nat → ℚ) (i : Nat) (h : i < n) :
    ((List.range n).map f).getD i 0 = f i := by
  rw [List.getD_eq_getElem?_getD, List.getElem?_map]
  simp [List.getElem?_range, h]

/-- C5: when `CartToJntVel` builds a bias task, the desired velocity of bias
row `i` is `m_nullspaceGain * (q_bias(i) - q_in(indicies[i])) / m_looprate`,
with `indicies[i]` the index returned by the name lookup — the proportional
control law of the specification. -/
theorem sns_c5_bias_desired_formula (s : SNS_IK) (q_in : List ℚ)
    (v_in : Fin 6 → ℚ) (q_bias : List ℚ) (biasNames : List String) (J jac2 : Mat)
    (inds : List Nat) (i : Nat) (hinit : s.m_initialized = true)
    (hne : q_bias.length ≠ 0)
    (hok : s.nullspaceBiasTask q_bias biasNames = BiasResult.ok jac2 inds)
    (hi : i < q_bias.length) :
    ∃ d2 : List ℚ,
      s.CartToJntVel q_in v_in q_bias biasNames (some J) =
        VelOutcome.invoke
          [{ jacobian := J, desired := List.ofFn v_in },
            { jacobian := jac2, desired := d2 }] q_in ∧
      d2.getD i 0 =
        s.m_nullspaceGain * (q_bias.getD i 0 - q_in.getD (inds.getD i 0) 0) /
          s.m_looprate := by
  refine ⟨(List.range q_bias.length).map
    (fun ii => s.m_nullspaceGain *
      (q_bias.getD ii 0 - q_in.getD (inds.getD ii 0) 0) / s.m_looprate), ?_, ?_⟩
  · simp [SNS_IK.CartToJntVel, hinit, hne, hok]
  · exact range_map_getD q_bias.length _ i hi

theorem sns_c5_witness :
    ik2.m_initialized = true ∧ ([1, 2] : List ℚ).length ≠ 0 ∧
      ik2.nullspaceBiasTask [1, 2] ["a", "b"] =
        BiasResult.ok ⟨2, 2, [[1, 0], [0, 1]]⟩ [0, 1] ∧
      0 < ([1, 2] : List ℚ).length ∧
      (∃ d2 : List ℚ,
        ik2.CartToJntVel [0, 0] (fun _ => 0) [1, 2] ["a", "b"]
            (some (matZero 6 2)) =
          VelOutcome.invoke
            [{ jacobian := matZero 6 2,
               desired := List.ofFn (fun _ : Fin 6 => (0 : ℚ)) },
              { jacobian := ⟨2, 2, [[1, 0], [0, 1]]⟩, desired := d2 }] [0, 0] ∧
        d2.getD 0 0 =
          ik2.m_nullspaceGain *
            (([1, 2] : List ℚ).getD 0 0 -
              ([0, 0] : List ℚ).getD (([0, 1] : List Nat).getD 0 0) 0) /
            ik2.m_looprate) :=
  ⟨by decide, by decide, by decide, by decide,
    sns_c5_bias_desired_formula ik2 [0, 0] (fun _ => 0) [1, 2] ["a", "b"]
      (matZero 6 2) ⟨2, 2, [[1, 0], [0, 1]]⟩ [0, 1] 0 (by decide) (by decide)
      (by decide) (by decide)⟩

/-- C6 counterexample: a bias request that resolves successfully in the
specification's sense — counts equal and every requested name present in the
chain (here `[j2, j5]` on the Ready 6-joint instance, resolving to indices
1 and 4) — does NOT always reach the velocity strategy with a length-2 task
stack: the transposed bias-Jacobian allocation (6 rows by 2 columns) makes the
second write target (1, 4), outside the allocated columns, so the call aborts
at the out-of-bounds Eigen write and no task stack is ever forwarded. -/
theorem sns_c6_resolving_bias_oob_cex :
    ik6.m_initialized = true ∧
      ([1, 2] : List ℚ).length = (["j2", "j5"] : List String).length ∧
      "j2" ∈ ik6.m_jointNames ∧ "j5" ∈ ik6.m_jointNames ∧
      ik6.CartToJntVel (List.replicate 6 0) (fun _ : Fin 6 => (0 : ℚ)) [1, 2]
          ["j2", "j5"] (some (matZero 6 6)) = VelOutcome.oob 1 4 ∧
      ∀ (sot : List SnsTask) (q : List ℚ),
        ik6.CartToJntVel (List.replicate 6 0) (fun _ : Fin 6 => (0 : ℚ)) [1, 2]
            ["j2", "j5"] (some (matZero 6 6)) ≠ VelOutcome.invoke sot q := by
  have hoob : ik6.CartToJntVel (List.replicate 6 0) (fun _ : Fin 6 => (0 : ℚ))
      [1, 2] ["j2", "j5"] (some (matZero 6 6)) = VelOutcome.oob 1 4 := by decide
  refine ⟨by decide, by decide, by decide, by decide, hoob, ?_⟩
  intro sot q h
  rw [h] at hoob
  cases hoob

/-- C6 (amended): on a Ready instance with a successful Jacobian computation,
an empty bias request yields a task stack of length one holding exactly the
primary task (chain Jacobian, desired = the six twist components, at index 0);
a nonempty bias request of N joints that resolves successfully AND whose bias
Jacobian is built without hitting the out-of-bounds write of the transposed
allocation (i.e. `nullspaceBiasTask` returns its success result) yields a stack
of length two with the bias task at index 1 and a desired vector of length N.
(A resolving request whose writes fall outside the allocation aborts instead,
per the counterexample.) -/
theorem sns_c6_task_stack_shape (s : SNS_IK) (q_in : List ℚ) (v_in : Fin 6 → ℚ)
    (J : Mat) (hinit : s.m_initialized = true) :
    (List.ofFn v_in).length = 6 ∧
    (∀ biasNames : List String,
      s.CartToJntVel q_in v_in [] biasNames (some J) =
        VelOutcome.invoke [{ jacobian := J, desired := List.ofFn v_in }] q_in) ∧
    (∀ (q_bias : List ℚ) (biasNames : List String) (jac2 : Mat)
        (inds : List Nat),
      q_bias.length ≠ 0 →
      s.nullspaceBiasTask q_bias biasNames = BiasResult.ok jac2 inds →
      ∃ d2 : List ℚ, d2.length = q_bias.length ∧
        s.CartToJntVel q_in v_in q_bias biasNames (some J) =
          VelOutcome.invoke
            [{ jacobian := J, desired := List.ofFn v_in },
              { jacobian := jac2, desired := d2 }] q_in) := by
  refine ⟨by simp, ?_, ?_⟩
  · intro biasNames
    simp [SNS_IK.CartToJntVel, hinit]
  · intro q_bias biasNames jac2 inds hne hok
    refine ⟨(List.range q_bias.length).map
      (fun ii => s.m_nullspaceGain *
        (q_bias.getD ii 0 - q_in.getD (inds.getD ii 0) 0) / s.m_looprate),
      by simp, ?_⟩
    simp [SNS_IK.CartToJntVel, hinit, hne, hok]

theorem sns_c6_witness :
    ik1.m_initialized = true ∧
      ((List.ofFn (fun _ : Fin 6 => (0 : ℚ))).length = 6 ∧
      (∀ biasNames : List String,
        ik1.CartToJntVel [0] (fun _ : Fin 6 => (0 : ℚ)) [] biasNames
            (some (matZero 6 1)) =
          VelOutcome.invoke
            [{ jacobian := matZero 6 1,
               desired := List.ofFn (fun _ : Fin 6 => (0 : ℚ)) }] [0]) ∧
      (∀ (q_bias : List ℚ) (biasNames : List String) (jac2 : Mat)
          (inds : List Nat),
        q_bias.length ≠ 0 →
        ik1.nullspaceBiasTask q_bias biasNames = BiasResult.ok jac2 inds →
        ∃ d2 : List ℚ, d2.length = q_bias.length ∧
          ik1.CartToJntVel [0] (fun _ : Fin 6 => (0 : ℚ)) q_bias biasNames
              (some (matZero 6 1)) =
            VelOutcome.invoke
              [{ jacobian := matZero 6 1,
                 desired := List.ofFn (fun _ : Fin 6 => (0 : ℚ)) },
                { jacobian := jac2, desired := d2 }] [0])) :=
  ⟨by decide,
    sns_c6_task_stack_shape ik1 [0] (fun _ : Fin 6 => (0 : ℚ)) (matZero 6 1)
      (by decide)⟩

/-- C7 counterexample: with an EMPTY bias values array but a nonempty bias
names list naming a joint absent from the chain, the bias name/value counts
differ (0 vs 1) and a requested name is absent — the claim's premise holds —
yet `CartToJntVel` does not fail with LookupError: the empty values array makes
the code skip the bias branch entirely and invoke the velocity strategy with
the primary-only task stack. -/
theorem sns_c7_empty_bias_values_cex :
    (([] : List ℚ).length ≠ (["zz"] : List String).length) ∧
      "zz" ∉ ik1.m_jointNames ∧
      ik1.CartToJntVel [0] (fun _ : Fin 6 => (0 : ℚ)) [] ["zz"]
          (some (matZero 6 1)) =
        VelOutcome.invoke
          [{ jacobian := matZero 6 1,
             desired := List.ofFn (fun _ : Fin 6 => (0 : ℚ)) }] [0] := by
  refine ⟨by decide, by decide, by decide⟩

/-- C7 (amended): provided the bias values array is nonempty, a bias request
whose counts differ or naming a joint absent from the chain makes
`CartToJntVel` fail — with LookupError (`-1`), or by aborting at the
out-of-bounds bias-Jacobian write when an earlier name resolves beyond the
allocated columns — and the velocity strategy is never invoked: no task stack,
full or partial, is forwarded to it. -/
theorem sns_c7_amended_lookup_or_oob (s : SNS_IK) (q_in : List ℚ)
    (v_in : Fin 6 → ℚ) (q_bias : List ℚ) (biasNames : List String) (J : Mat)
    (hinit : s.m_initialized = true) (hne : q_bias.length ≠ 0)
    (hbad : q_bias.length ≠ biasNames.length ∨
      ∃ b ∈ biasNames, b ∉ s.m_jointNames) :
    (s.CartToJntVel q_in v_in q_bias biasNames (some J) =
        VelOutcome.lookupFail ∨
      ∃ r c, s.CartToJntVel q_in v_in q_bias biasNames (some J) =
        VelOutcome.oob r c) ∧
    ∀ (sot : List SnsTask) (q : List ℚ),
      s.CartToJntVel q_in v_in q_bias biasNames (some J) ≠
        VelOutcome.invoke sot q := by
  have hmain : s.CartToJntVel q_in v_in q_bias biasNames (some J) =
      VelOutcome.lookupFail ∨
      ∃ r c, s.CartToJntVel q_in v_in q_bias biasNames (some J) =
        VelOutcome.oob r c := by
    by_cases hc : q_bias.length ≠ biasNames.length
    · left
      simp [SNS_IK.CartToJntVel, hinit, hne, SNS_IK.nullspaceBiasTask, hc]
    · have habs : ∃ b ∈ biasNames, b ∉ s.m_jointNames := by
        rcases hbad with hbad | hbad
        · exact absurd hbad hc
        · exact hbad
      have hloop := biasLoop_absent s.m_jointNames biasNames
        (matZero s.m_jointNames.length q_bias.length)
        (List.replicate q_bias.length 0) 0 habs
      have htask : s.nullspaceBiasTask q_bias biasNames =
          biasLoop s.m_jointNames (matZero s.m_jointNames.length q_bias.length)
            (List.replicate q_bias.length 0) 0 biasNames := by
        simp [SNS_IK.nullspaceBiasTask, hc]
      rcases hloop with hloop | ⟨r, c, hloop⟩
      · left
        rw [← htask] at hloop
        simp [SNS_IK.CartToJntVel, hinit, hne, hloop]
      · right
        refine ⟨r, c, ?_⟩
        rw [← htask] at hloop
        simp [SNS_IK.CartToJntVel, hinit, hne, hloop]
  refine ⟨hmain, ?_⟩
  intro sot q hinv
  rcases hmain with hmain | ⟨r, c, hmain⟩
  · rw [hinv] at hmain
    cases hmain
  · rw [hinv] at hmain
    cases hmain

theorem sns_c7_amended_witness :
    ik1.m_initialized = true ∧ ([1] : List ℚ).length ≠ 0 ∧
      (([1] : List ℚ).length ≠ (["zz"] : List String).length ∨
        ∃ b ∈ (["zz"] : List String), b ∉ ik1.m_jointNames) ∧
      ((ik1.CartToJntVel [0] (fun _ : Fin 6 => (0 : ℚ)) [1] ["zz"]
            (some (matZero 6 1)) = VelOutcome.lookupFail ∨
        ∃ r c, ik1.CartToJntVel [0] (fun _ : Fin 6 => (0 : ℚ)) [1] ["zz"]
            (some (matZero 6 1)) = VelOutcome.oob r c) ∧
      ∀ (sot : List SnsTask) (q : List ℚ),
        ik1.CartToJntVel [0] (fun _ : Fin 6 => (0 : ℚ)) [1] ["zz"]
            (some (matZero 6 1)) ≠ VelOutcome.invoke sot q) :=
  ⟨by decide, by decide, Or.inr ⟨"zz", by decide, by decide⟩,
    sns_c7_amended_lookup_or_oob ik1 [0] (fun _ : Fin 6 => (0 : ℚ)) [1] ["zz"]
      (matZero 6 1) (by decide) (by decide)
      (Or.inr ⟨"zz", by decide, by decide⟩)⟩

/-- C8: calling `setVelocitySolveType` with the currently active tag while a
velocity solver exists reports failure and mutates nothing — the returned
state is the input state, so solver, position wrapper, stored tag, bounds and
Ready flag are all unchanged — and the instance solves exactly as before. -/
theorem sns_c8_same_tag_noop (s : SNS_IK) (type : VelocitySolveType)
    (htag : type = s.m_solvetype) (hsolver : s.m_ik_vel_solver ≠ none) :
    s.setVelocitySolveType type = (false, s) ∧
      ∀ (q_in : List ℚ) (v_in : Fin 6 → ℚ) (q_bias : List ℚ)
        (biasNames : List String) (jacResult : Option Mat),
        (s.setVelocitySolveType type).2.CartToJntVel q_in v_in q_bias biasNames
            jacResult =
          s.CartToJntVel q_in v_in q_bias biasNames jacResult := by
  have hmain : s.setVelocitySolveType type = (false, s) := by
    rw [SNS_IK.setVelocitySolveType, if_neg]
    push_neg
    exact ⟨htag ▸ rfl, hsolver⟩
  exact ⟨hmain, fun q_in v_in q_bias biasNames jacResult => by rw [hmain]⟩

theorem sns_c8_witness :
    VelocitySolveType.SNS = ik1.m_solvetype ∧ ik1.m_ik_vel_solver ≠ none ∧
      (ik1.setVelocitySolveType VelocitySolveType.SNS = (false, ik1) ∧
        ∀ (q_in : List ℚ) (v_in : Fin 6 → ℚ) (q_bias : List ℚ)
          (biasNames : List String) (jacResult : Option Mat),
          (ik1.setVelocitySolveType VelocitySolveType.SNS).2.CartToJntVel q_in
              v_in q_bias biasNames jacResult =
            ik1.CartToJntVel q_in v_in q_bias biasNames jacResult) :=
  ⟨by decide, by decide,
    sns_c8_same_tag_noop ik1 VelocitySolveType.SNS (by decide) (by decide)⟩

/-- C10: on a Ready instance, an empty bias values array is treated as "no
bias request" by both solve entry points, whatever the bias names list
contains: no bias task is built, no count-mismatch error is raised, and the
solver is invoked with no bias (plain position call; primary-only task
stack). -/
theorem sns_c10_empty_bias_ignored (s : SNS_IK) (q_init q_in : List ℚ)
    (v_in : Fin 6 → ℚ) (biasNames : List String) (J : Mat)
    (hinit : s.m_initialized = true) :
    s.CartToJnt q_init [] biasNames = PosOutcome.invokePlain q_init ∧
      s.CartToJntVel q_in v_in [] biasNames (some J) =
        VelOutcome.invoke [{ jacobian := J, desired := List.ofFn v_in }] q_in := by
  constructor
  · simp [SNS_IK.CartToJnt, hinit]
  · simp [SNS_IK.CartToJntVel, hinit]

theorem sns_c10_witness :
    ik1.m_initialized = true ∧
      (ik1.CartToJnt [0] [] ["zz", "yy"] = PosOutcome.invokePlain [0] ∧
        ik1.CartToJntVel [0] (fun _ : Fin 6 => (0 : ℚ)) [] ["zz", "yy"]
            (some (matZero 6 1)) =
          VelOutcome.invoke
            [{ jacobian := matZero 6 1,
               desired := List.ofFn (fun _ : Fin 6 => (0 : ℚ)) }] [0]) :=
  ⟨by decide,
    sns_c10_empty_bias_ignored ik1 [0] [0] (fun _ : Fin 6 => (0 : ℚ))
      ["zz", "yy"] (matZero 6 1) (by decide)⟩
